import Mathlib

/-!
Verification of the patient-monitoring data pipeline.

Shallow embedding of the repository's five Python source files:
  * `Ingest`    — `ingest.py` (clean raw vitals readings)
  * `Bigtable`  — `bigtable_load.py` (hour-bucketed wide-column store)
  * `Bigquery`  — `bigquery_load.py` (warehouse loader)
  * `Vertex`    — `vertex_pipeline.py` (risk-label rule)

Numeric vitals values are modelled as rationals, instants as UTC epoch
milliseconds (integers); missing values (pandas NaN / JSON null) are
modelled with `Option`.
-/

namespace PatientMonitoring

/-! ### List and string utilities

Stable sorting, indexed mapping and duplicate removal, written by
structural recursion so that concrete runs of the embedded programs
evaluate inside proofs. -/

/-- Lexicographic comparison of character lists by code point (the
comparison Python applies to strings). -/
def charListLt : List Char → List Char → Bool
  | [], [] => false
  | [], _ :: _ => true
  | _ :: _, [] => false
  | a :: as, b :: bs =>
    if a.toNat < b.toNat then true
    else if b.toNat < a.toNat then false
    else charListLt as bs

/-- Strict lexicographic order on strings. -/
def strLtB (a b : String) : Bool := charListLt a.data b.data

/-- Lexicographic `≤` on strings. -/
def strLeB (a b : String) : Bool := !strLtB b a

/-- Insert an element in front of the first list element it compares `le`
to (the insertion step of a stable insertion sort). -/
def insertSorted {α : Type} (le : α → α → Bool) (a : α) : List α → List α
  | [] => [a]
  | b :: l => if le a b then a :: b :: l else b :: insertSorted le a l

/-- Stable sort by the comparison `le`. -/
def sortBy {α : Type} (le : α → α → Bool) : List α → List α
  | [] => []
  | a :: l => insertSorted le a (sortBy le l)

/-- Map with the element's position, starting the count at `i`. -/
def mapIdxFrom {α β : Type} (f : Nat → α → β) : Nat → List α → List β
  | _, [] => []
  | i, a :: l => f i a :: mapIdxFrom f (i + 1) l

/-- Remove duplicates, keeping each string's first occurrence. -/
def dedupFirst : List String → List String
  | [] => []
  | a :: l => a :: (dedupFirst l).filter (fun b => !(b == a))

/-! ### Cleaner (`ingest.py`) -/

namespace Ingest

/-- A raw input record (one JSONL line of the raw vitals file).
`event_timestamp` holds the outcome of pandas timestamp parsing:
`some t` is the parsed UTC instant in epoch milliseconds, `none` an
unparseable value (`errors='coerce'` turns it into NaT). -/
structure RawRecord where
  sensor_id : String
  event_timestamp : Option Int
  heart_rate : Option ℚ
  body_temperature : Option ℚ
  spO2 : Int
  battery_level : Int
deriving DecidableEq

/-- A cleaned output record (one line of `vitals_cleaned.jsonl`). -/
structure CleanRecord where
  sensor_id : String
  event_timestamp : Int
  heart_rate : Option ℚ
  body_temperature : Option ℚ
  spO2 : Int
  battery_level : Int
  heart_rate_imputed : Bool
deriving DecidableEq

/-- Per-record part of the cleaning: drop records whose timestamp failed to
parse or lies after `now` (`parsed_ts.isna()` / `parsed_ts <= now_utc`),
normalize the timestamp to epoch milliseconds, clamp `body_temperature`
into [27, 42.6] (`clip` leaves a missing value missing), and record the
`heart_rate_imputed` flag (`data['heart_rate'].isna()`). -/
def cleanRecord (now : Int) (r : RawRecord) : Option CleanRecord :=
  match r.event_timestamp with
  | none => none
  | some t =>
    if t ≤ now then
      some { sensor_id := r.sensor_id
             event_timestamp := t
             heart_rate := r.heart_rate
             body_temperature := r.body_temperature.map (fun v => min (max v 27) 42.6)
             spO2 := r.spO2
             battery_level := r.battery_level
             heart_rate_imputed := r.heart_rate.isNone }
    else none

/-- `data.sort_values(['sensor_id', 'event_timestamp'])` restricted to one
sensor: the records of that sensor in ascending event-time order (stable). -/
def sortedGroup (valid : List CleanRecord) (sid : String) : List CleanRecord :=
  sortBy (fun a b => decide (a.event_timestamp ≤ b.event_timestamp))
    (valid.filter (fun c => c.sensor_id == sid))

/-- The observed heart-rate values inside the trailing rolling window of
width 3 ending at position `i` of a sensor's sorted sequence `g`
(`x.rolling(window=3, min_periods=1)` at position `i` covers positions
`i-2 .. i`; missing values contribute nothing to the mean). -/
def rollingWindow (g : List CleanRecord) (i : Nat) : List ℚ :=
  ((g.take (i + 1)).drop (i - 2)).filterMap (fun c => c.heart_rate)

/-- The trailing rolling mean at position `i` (`min_periods=1`: it is
missing exactly when no observed value lies in the window). -/
def rollingMean (g : List CleanRecord) (i : Nat) : Option ℚ :=
  let vals := rollingWindow g i
  if vals.isEmpty then none else some (vals.sum / (vals.length : ℚ))

/-- `x.fillna(x.rolling(window=3, min_periods=1).mean())` at one position:
an observed heart rate is kept, a missing one is replaced by the rolling
mean of the original series at that position. -/
def fillRecord (g : List CleanRecord) (i : Nat) (r : CleanRecord) : CleanRecord :=
  match r.heart_rate with
  | some _ => r
  | none => { r with heart_rate := rollingMean g i }

/-- The groupby-transform over one sensor's sorted sequence. -/
def imputeGroup (g : List CleanRecord) : List CleanRecord :=
  mapIdxFrom (fun i r => fillRecord g i r) 0 g

/-- One sensor's contribution to the cleaned output: impute, then drop the
rows whose heart rate is still missing (`data[~data['heart_rate'].isna()]`). -/
def cleanGroup (valid : List CleanRecord) (sid : String) : List CleanRecord :=
  (imputeGroup (sortedGroup valid sid)).filter (fun c => c.heart_rate.isSome)

/-- The sensor ids of the retained records, in ascending order (the order
in which `sort_values(['sensor_id', 'event_timestamp'])` lays out the
groups). -/
def sensorIds (valid : List CleanRecord) : List String :=
  sortBy strLeB (dedupFirst (valid.map (fun c => c.sensor_id)))

/-- `ingest_and_clean_data`, after the input-path validation: parse and
filter timestamps, clamp body temperature, sort by (sensor, time), impute
missing heart rates per sensor with the trailing rolling mean, drop rows
whose heart rate is still missing. The result lists the cleaned records
in the sorted order (sensor groups in ascending id order, each group in
ascending time order). -/
def ingest_and_clean_data (now : Int) (records : List RawRecord) : List CleanRecord :=
  let valid := records.filterMap (cleanRecord now)
  (sensorIds valid).flatMap (cleanGroup valid)

/-- The cleaner's view of the filesystem: which paths name existing
regular files (`os.path.isfile`), and the raw records read from a file
(`pd.read_json(..., lines=True)`). -/
structure FileSystem where
  isFile : String → Bool
  contents : String → List RawRecord

/-- Entry point of `ingest_and_clean_data(file_path=None)`: raise a
`ValueError` when no path is given or the path is not an existing file —
before any data is read — and otherwise clean the file's records and
return (cleaned records, row count, imputed count). -/
def ingest_entry (fs : FileSystem) (now : Int) (path : Option String) :
    Except String (List CleanRecord × Nat × Nat) :=
  match path with
  | none => .error "Please provide a valid file path for the raw data."
  | some p =>
    if fs.isFile p then
      let out := ingest_and_clean_data now (fs.contents p)
      .ok (out, out.length, (out.filter (fun c => c.heart_rate_imputed)).length)
    else .error "Please provide a valid file path for the raw data."

end Ingest

/-! ### Wide-column loader (`bigtable_load.py`) -/

namespace Bigtable

/-- Milliseconds per hour. -/
def msPerHour : Int := 3600000

/-- The UTC hour bucket an epoch-millisecond instant falls into
(floor division; Lean's `Int` division by a positive divisor is the
floor, matching Python's behaviour on negative instants). -/
def hourIndex (ms : Int) : Int := ms / msPerHour

/-- Proleptic-Gregorian calendar date (year, month, day) of a day number
(days since 1970-01-01), the computation `datetime` performs when a UTC
timestamp is formatted. -/
def civilFromDays (z : Int) : Int × Int × Int :=
  let z' := z + 719468
  let era := z' / 146097
  let doe := z' % 146097
  let yoe := (doe - doe / 1460 + doe / 36524 - doe / 146096) / 365
  let y := yoe + era * 400
  let doy := doe - (365 * yoe + yoe / 4 - yoe / 100)
  let mp := (5 * doy + 2) / 153
  let d := doy - (153 * mp + 2) / 5 + 1
  let m := mp + (if mp < 10 then 3 else -9)
  (y + (if m ≤ 2 then 1 else 0), m, d)

/-- Two-digit zero-padded decimal (`%m`, `%d`, `%H`). -/
def pad2 (n : Nat) : String :=
  if n < 10 then "0" ++ toString n else toString n

/-- Four-digit zero-padded year (`%Y`). -/
def pad4 (y : Int) : String :=
  if 0 ≤ y ∧ y < 10 then "000" ++ toString y
  else if 0 ≤ y ∧ y < 100 then "00" ++ toString y
  else if 0 ≤ y ∧ y < 1000 then "0" ++ toString y
  else toString y

/-- `f'{dt:%Y-%m-%dT%H}'` for the UTC instant lying in hour bucket `h`:
the calendar fields of the instant depend on the instant only through its
hour bucket (day number = `h / 24`, hour of day = `h % 24`). -/
def hourBucketString (h : Int) : String :=
  let day := h / 24
  let hod := (h % 24).toNat
  let ymd := civilFromDays day
  pad4 ymd.1 ++ "-" ++ pad2 ymd.2.1.toNat ++ "-" ++ pad2 ymd.2.2.toNat ++ "T" ++ pad2 hod

/-- `make_row_key`: `{sensor_id}#{YYYY-MM-DDTHH}` (UTC hour bucket). -/
def make_row_key (sensor_id : String) (event_timestamp_ms : Int) : String :=
  sensor_id ++ "#" ++ hourBucketString (hourIndex event_timestamp_ms)

/-- One stored cell version: the cell timestamp (the reading's exact event
instant, epoch milliseconds) and the decoded value. -/
structure VersionedCell (α : Type) where
  ts : Int
  val : α
deriving DecidableEq

/-- The cell versions of one hour-bucket row, per column
(families `vitals` — heart_rate, body_temperature, spO2 — and
`meta` — battery_level, heart_rate_imputed). -/
structure VitalsRow where
  heart_rate : List (VersionedCell ℚ)
  body_temperature : List (VersionedCell ℚ)
  spO2 : List (VersionedCell Int)
  battery_level : List (VersionedCell Int)
  heart_rate_imputed : List (VersionedCell Bool)
deriving DecidableEq

/-- The wide-column table: an association list from row key to row. -/
def BtTable := List (String × VitalsRow)

/-- A single-row read (`table.read_row`). -/
def readRow (t : BtTable) (k : String) : Option VitalsRow :=
  (t.find? (fun p => p.1 == k)).map (fun p => p.2)

/-- One reading of the cleaned JSONL file as the loader consumes it
(after cleaning every stored field is present). -/
structure StoredReading where
  sensor_id : String
  event_timestamp : Int
  heart_rate : ℚ
  body_temperature : ℚ
  spO2 : Int
  battery_level : Int
  heart_rate_imputed : Bool
deriving DecidableEq

/-- Append a record to its row key's group, keyed groups in first-appearance
order (`defaultdict(list)` insertion order). -/
def insertGrouped (acc : List (String × List StoredReading)) (k : String)
    (r : StoredReading) : List (String × List StoredReading) :=
  match acc with
  | [] => [(k, [r])]
  | (k', rs) :: rest =>
    if k' == k then (k', rs ++ [r]) :: rest else (k', rs) :: insertGrouped rest k r

/-- `grouped`: events grouped by row key so each row is mutated once. -/
def groupByKey (records : List StoredReading) : List (String × List StoredReading) :=
  records.foldl (fun acc r => insertGrouped acc (make_row_key r.sensor_id r.event_timestamp) r) []

/-- The row mutation built for one key's events: one `set_cell` per event
and column, each cell stamped with the event's exact instant. -/
def directRow (events : List StoredReading) : VitalsRow :=
  { heart_rate := events.map (fun e => ⟨e.event_timestamp, e.heart_rate⟩)
    body_temperature := events.map (fun e => ⟨e.event_timestamp, e.body_temperature⟩)
    spO2 := events.map (fun e => ⟨e.event_timestamp, e.spO2⟩)
    battery_level := events.map (fun e => ⟨e.event_timestamp, e.battery_level⟩)
    heart_rate_imputed := events.map (fun e => ⟨e.event_timestamp, e.heart_rate_imputed⟩) }

/-- The write loop: accumulate row mutations, flush a batch as soon as it
holds 50 rows, and flush the final partial batch after the loop when it is
non-empty. Returns the batches in the order they are sent. -/
def flushBatches : List (String × VitalsRow) → List (String × VitalsRow) →
    List (List (String × VitalsRow))
  | [], batch => if batch.isEmpty then [] else [batch]
  | r :: rest, batch =>
    let b := batch ++ [r]
    if 50 ≤ b.length then b :: flushBatches rest [] else flushBatches rest b

/-- Apply one row mutation to the table: new cell versions are added to the
row's columns (the row is created on first write). -/
def writeRow (t : BtTable) (k : String) (row : VitalsRow) : BtTable :=
  match t with
  | [] => [(k, row)]
  | (k', old) :: rest =>
    if k' == k then
      (k', { heart_rate := old.heart_rate ++ row.heart_rate
             body_temperature := old.body_temperature ++ row.body_temperature
             spO2 := old.spO2 ++ row.spO2
             battery_level := old.battery_level ++ row.battery_level
             heart_rate_imputed := old.heart_rate_imputed ++ row.heart_rate_imputed }) :: rest
    else (k', old) :: writeRow rest k row

/-- `table.mutate_rows(batch)`. -/
def mutateRows (t : BtTable) (batch : List (String × VitalsRow)) : BtTable :=
  batch.foldl (fun t p => writeRow t p.1 p.2) t

/-- `create_table`: delete the table when it exists, then create it empty
(the column families and their 7-day max-age GC rule live outside the
data model). -/
def create_table (existing : Option BtTable) : BtTable :=
  match existing with
  | some _ => ([] : BtTable)
  | none => ([] : BtTable)

/-- `load_data`: group the records by row key, send the grouped row
mutations in batches of up to 50, and return the mutated table together
with `(len(records), len(grouped))`. -/
def load_data (t : BtTable) (records : List StoredReading) :
    BtTable × Nat × Nat :=
  let grouped := groupByKey records
  let rows := grouped.map (fun p => (p.1, directRow p.2))
  ((flushBatches rows []).foldl mutateRows t, records.length, grouped.length)

/-- The server-side timestamp-range filter on one column's cell list:
Bigtable's `TimestampRange(start, end)` keeps the cells with
`start ≤ ts < end` (inclusive lower bound, exclusive upper bound). -/
def cellsInRange {α : Type} (s e : Int) (cs : List (VersionedCell α)) :
    List (VersionedCell α) :=
  cs.filter (fun c => decide (s ≤ c.ts) && decide (c.ts < e))

/-- The timestamp-range filter applied to a whole row. -/
def filterRow (s e : Int) (row : VitalsRow) : VitalsRow :=
  { heart_rate := cellsInRange s e row.heart_rate
    body_temperature := cellsInRange s e row.body_temperature
    spO2 := cellsInRange s e row.spO2
    battery_level := cellsInRange s e row.battery_level
    heart_rate_imputed := cellsInRange s e row.heart_rate_imputed }

/-- One entry of `query_patient_vitals`' result list. -/
structure QueryResult where
  timestamp : Int
  heart_rate : ℚ
  body_temperature : Option ℚ
  spO2 : Option Int
deriving DecidableEq

/-- The per-row result assembly: one entry per `heart_rate` cell version,
positionally aligned with the `body_temperature` and `spO2` cell lists
(`bt_cells[i].value if i < len(bt_cells) else None`). -/
def assembleRow (hr bt : List (VersionedCell ℚ)) (sp : List (VersionedCell Int)) :
    List QueryResult :=
  mapIdxFrom (fun i c =>
    { timestamp := c.ts
      heart_rate := c.val
      body_temperature := (bt[i]?).map (fun x => x.val)
      spO2 := (sp[i]?).map (fun x => x.val) : QueryResult }) 0 hr

/-- `sorted({two bucket keys})`: the at most two hour-bucket row keys a
1-hour lookback window can span, deduplicated and in ascending order. -/
def queryBuckets (sensor_id : String) (reference_time_ms : Int) : List String :=
  let k1 := make_row_key sensor_id (reference_time_ms - msPerHour)
  let k2 := make_row_key sensor_id reference_time_ms
  if k1 == k2 then [k1]
  else if strLtB k1 k2 then [k1, k2] else [k2, k1]

/-- The entries one bucket row contributes: read the row, apply the
server-side timestamp filter, assemble the cell lists. -/
def bucketEntries (t : BtTable) (s e : Int) (rk : String) : List QueryResult :=
  match readRow t rk with
  | none => []
  | some row =>
    let row := filterRow s e row
    assembleRow row.heart_rate row.body_temperature row.spO2

/-- `query_patient_vitals`: all vitals for a sensor in the 1 hour before
`reference_time_ms`, merged over the at most two bucket rows and sorted
ascending by cell timestamp. -/
def query_patient_vitals (t : BtTable) (sensor_id : String)
    (reference_time_ms : Int) : List QueryResult :=
  let s := reference_time_ms - msPerHour
  sortBy (fun a b => decide (a.timestamp ≤ b.timestamp))
    ((queryBuckets sensor_id reference_time_ms).flatMap
      (bucketEntries t s reference_time_ms))

/-- The query the specification's words describe, for comparison: identical
to `query_patient_vitals` except that it keeps the cell versions whose
timestamp lies in the half-open interval `(reference − 1h, reference]`
(exclusive start, inclusive end). -/
def querySpecInterval (t : BtTable) (sensor_id : String)
    (reference_time_ms : Int) : List QueryResult :=
  let s := reference_time_ms - msPerHour
  sortBy (fun a b => decide (a.timestamp ≤ b.timestamp))
    ((queryBuckets sensor_id reference_time_ms).flatMap (fun rk =>
      match readRow t rk with
      | none => []
      | some row =>
        let keep := fun {α : Type} (cs : List (VersionedCell α)) =>
          cs.filter (fun c => decide (s < c.ts) && decide (c.ts ≤ reference_time_ms))
        assembleRow (keep row.heart_rate) (keep row.body_temperature)
          (keep row.spO2)))

end Bigtable

/-! ### Warehouse loader (`bigquery_load.py`) -/

namespace Bigquery

/-- `create_table`: `delete_table(..., not_found_ok=True)` followed by
`create_table` — whatever existed before, the table is now empty (schema,
partitioning and clustering live outside the data model). -/
def create_table (existing : Option (List Bigtable.StoredReading)) :
    List Bigtable.StoredReading :=
  match existing with
  | some _ => []
  | none => []

/-- `load_data` with `WriteDisposition.WRITE_TRUNCATE`: the loaded rows
replace the table's entire contents; returns the table and its row count. -/
def load_data (table : List Bigtable.StoredReading)
    (rows : List Bigtable.StoredReading) : List Bigtable.StoredReading × Nat :=
  (rows, rows.length)

end Bigquery

/-! ### Risk pipeline label rule (`vertex_pipeline.py`) -/

namespace Vertex

/-- The label derivation of `ingest_from_bigquery`'s SQL:
`CASE WHEN (body_temperature > 38 OR body_temperature < 36) AND
heart_rate > 90 THEN 1 ELSE 0 END AS septic_risk`. -/
def septic_risk (body_temperature heart_rate : ℚ) : Int :=
  if (body_temperature > 38 ∨ body_temperature < 36) ∧ heart_rate > 90 then 1 else 0

end Vertex

/-! ### Utility lemmas -/

theorem mem_insertSorted {α : Type} (le : α → α → Bool) (a x : α) (l : List α) :
    x ∈ insertSorted le a l ↔ x = a ∨ x ∈ l := by
  induction l with
  | nil => simp [insertSorted]
  | cons b l ih =>
    by_cases h : le a b = true <;> simp [insertSorted, h, ih] <;> tauto

theorem mem_sortBy {α : Type} (le : α → α → Bool) (x : α) (l : List α) :
    x ∈ sortBy le l ↔ x ∈ l := by
  induction l with
  | nil => simp [sortBy]
  | cons a l ih => simp [sortBy, mem_insertSorted, ih]

theorem insertSorted_perm {α : Type} (le : α → α → Bool) (a : α) (m : List α) :
    List.Perm (insertSorted le a m) (a :: m) := by
  induction m with
  | nil => simp [insertSorted]
  | cons b m ihm =>
    by_cases hb : le a b = true
    · simp [insertSorted, hb]
    · rw [insertSorted, if_neg hb]
      exact (List.Perm.cons b ihm).trans (List.Perm.swap a b m)

theorem sortBy_perm {α : Type} (le : α → α → Bool) (l : List α) :
    List.Perm (sortBy le l) l := by
  induction l with
  | nil => simp [sortBy]
  | cons a l ih =>
    exact (insertSorted_perm le a (sortBy le l)).trans (List.Perm.cons a ih)

theorem pairwise_insertSorted {α : Type} (le : α → α → Bool)
    (htot : ∀ a b, le a b || le b a)
    (htrans : ∀ a b c, le a b = true → le b c = true → le a c = true)
    (a : α) (l : List α)
    (hl : l.Pairwise (fun x y => le x y = true)) :
    (insertSorted le a l).Pairwise (fun x y => le x y = true) := by
  induction l with
  | nil => simp [insertSorted]
  | cons b l ih =>
    rcases hl with _ | ⟨hb, hl⟩
    by_cases hab : le a b = true
    · rw [insertSorted, if_pos hab]
      refine List.Pairwise.cons ?_ (List.Pairwise.cons hb hl)
      intro x hx
      rcases List.mem_cons.mp hx with rfl | hx
      · exact hab
      · exact htrans a b x hab (hb x hx)
    · have hba : le b a = true := by
        rcases Bool.or_eq_true _ _ |>.mp (htot a b) with h | h
        · exact absurd h hab
        · exact h
      rw [insertSorted, if_neg hab]
      refine List.Pairwise.cons ?_ (ih hl)
      intro x hx
      rcases (mem_insertSorted le a x l).mp hx with rfl | hx
      · exact hba
      · exact hb x hx

theorem pairwise_sortBy {α : Type} (le : α → α → Bool)
    (htot : ∀ a b, le a b || le b a)
    (htrans : ∀ a b c, le a b = true → le b c = true → le a c = true)
    (l : List α) :
    (sortBy le l).Pairwise (fun x y => le x y = true) := by
  induction l with
  | nil => simp [sortBy]
  | cons a l ih => exact pairwise_insertSorted le htot htrans a _ ih

theorem length_mapIdxFrom {α β : Type} (f : Nat → α → β) (i : Nat) (l : List α) :
    (mapIdxFrom f i l).length = l.length := by
  induction l generalizing i with
  | nil => rfl
  | cons a l ih => simp [mapIdxFrom, ih]

theorem getElem_mapIdxFrom {α β : Type} (f : Nat → α → β) (i : Nat) (l : List α)
    (j : Nat) (hj : j < l.length) (hj' : j < (mapIdxFrom f i l).length) :
    (mapIdxFrom f i l)[j] = f (i + j) l[j] := by
  induction l generalizing i j with
  | nil => simp at hj
  | cons a l ih =>
    cases j with
    | zero => simp [mapIdxFrom]
    | succ j =>
      have hjl : j < l.length := by simpa using hj
      have hjl' : j < (mapIdxFrom f (i + 1) l).length := by
        rw [length_mapIdxFrom]; exact hjl
      simp only [mapIdxFrom, List.getElem_cons_succ]
      rw [ih (i + 1) j hjl hjl']
      congr 1
      omega

theorem append_last_eq {x y u v : List Char} (hlen : x.length = y.length)
    (h : u ++ x = v ++ y) : x = y := by
  have hl := congrArg List.length h
  simp only [List.length_append] at hl
  exact List.append_inj_right h (by omega)

theorem mem_dedupFirst (x : String) (l : List String) :
    x ∈ dedupFirst l ↔ x ∈ l := by
  induction l with
  | nil => simp [dedupFirst]
  | cons a l ih =>
    simp only [dedupFirst, List.mem_cons, List.mem_filter]
    constructor
    · rintro (rfl | ⟨hx, _⟩)
      · exact Or.inl rfl
      · exact Or.inr (ih.mp hx)
    · rintro (rfl | hx)
      · exact Or.inl rfl
      · by_cases hxa : x = a
        · exact Or.inl hxa
        · exact Or.inr ⟨ih.mpr hx, by simp [hxa]⟩

theorem mem_mapIdxFrom {α β : Type} (f : Nat → α → β) (i : Nat) (l : List α) (b : β) :
    b ∈ mapIdxFrom f i l ↔ ∃ j, ∃ h : j < l.length, b = f (i + j) l[j] := by
  induction l generalizing i with
  | nil => simp [mapIdxFrom]
  | cons a l ih =>
    simp only [mapIdxFrom, List.mem_cons, ih]
    constructor
    · rintro (rfl | ⟨j, hj, rfl⟩)
      · exact ⟨0, by simp, by simp⟩
      · refine ⟨j + 1, by simpa using Nat.succ_lt_succ hj, ?_⟩
        simp only [List.getElem_cons_succ]
        congr 1
        omega
    · rintro ⟨j, hj, rfl⟩
      cases j with
      | zero => exact Or.inl (by simp)
      | succ j =>
        refine Or.inr ⟨j, by simpa using Nat.lt_of_succ_lt_succ hj, ?_⟩
        simp only [List.getElem_cons_succ]
        congr 1
        omega

/-! ### Cleaner lemmas -/

namespace Ingest

theorem cleanRecord_spec (now : Int) (r : RawRecord) (c : CleanRecord)
    (h : cleanRecord now r = some c) :
    c.sensor_id = r.sensor_id ∧ r.event_timestamp = some c.event_timestamp ∧
    c.event_timestamp ≤ now ∧ c.heart_rate = r.heart_rate ∧
    c.body_temperature = r.body_temperature.map (fun v => min (max v 27) 42.6) ∧
    c.heart_rate_imputed = r.heart_rate.isNone := by
  cases ht : r.event_timestamp with
  | none =>
    simp only [cleanRecord, ht] at h
    exact absurd h (by simp)
  | some t =>
    simp only [cleanRecord, ht] at h
    by_cases hle : t ≤ now
    · rw [if_pos hle] at h
      obtain rfl := Option.some.inj h
      exact ⟨rfl, rfl, hle, rfl, rfl, rfl⟩
    · rw [if_neg hle] at h
      exact absurd h (by simp)

theorem mem_sortedGroup (valid : List CleanRecord) (sid : String) (c : CleanRecord) :
    c ∈ sortedGroup valid sid ↔ c ∈ valid ∧ c.sensor_id = sid := by
  rw [sortedGroup, mem_sortBy, List.mem_filter]
  simp

theorem sensorId_mem_sensorIds (valid : List CleanRecord) (c : CleanRecord)
    (h : c ∈ valid) : c.sensor_id ∈ sensorIds valid := by
  rw [sensorIds, mem_sortBy, mem_dedupFirst]
  exact List.mem_map.mpr ⟨c, h, rfl⟩

theorem length_imputeGroup (g : List CleanRecord) :
    (imputeGroup g).length = g.length :=
  length_mapIdxFrom _ 0 g

theorem getElem_imputeGroup (g : List CleanRecord) (i : Nat)
    (hi : i < (imputeGroup g).length) (hig : i < g.length) :
    (imputeGroup g)[i] = fillRecord g i g[i] := by
  unfold imputeGroup at hi ⊢
  rw [getElem_mapIdxFrom _ 0 g i hig hi, Nat.zero_add]

theorem fillRecord_fields (g : List CleanRecord) (i : Nat) (r : CleanRecord) :
    (fillRecord g i r).sensor_id = r.sensor_id ∧
    (fillRecord g i r).event_timestamp = r.event_timestamp ∧
    (fillRecord g i r).body_temperature = r.body_temperature ∧
    (fillRecord g i r).heart_rate_imputed = r.heart_rate_imputed := by
  rw [fillRecord]
  cases r.heart_rate <;> exact ⟨rfl, rfl, rfl, rfl⟩

theorem fillRecord_of_isSome (g : List CleanRecord) (i : Nat) (r : CleanRecord)
    (h : r.heart_rate.isSome) : fillRecord g i r = r := by
  rw [fillRecord]
  cases hr : r.heart_rate with
  | none => rw [hr] at h; exact absurd h (by simp)
  | some v => rfl

theorem fillRecord_of_none (g : List CleanRecord) (i : Nat) (r : CleanRecord)
    (h : r.heart_rate = none) :
    fillRecord g i r = { r with heart_rate := rollingMean g i } := by
  rw [fillRecord, h]

theorem mem_output_of_mem_cleanGroup (now : Int) (records : List RawRecord)
    (sid : String) (c : CleanRecord)
    (hs : sid ∈ sensorIds (records.filterMap (cleanRecord now)))
    (hc : c ∈ cleanGroup (records.filterMap (cleanRecord now)) sid) :
    c ∈ ingest_and_clean_data now records := by
  rw [ingest_and_clean_data]
  exact List.mem_flatMap.mpr ⟨sid, hs, hc⟩

theorem rollingWindow_of_missing (g : List CleanRecord) (i : Nat)
    (hi : i < g.length) (hmiss : g[i].heart_rate = none) :
    rollingWindow g i = ((g.take i).drop (i - 2)).filterMap (fun c => c.heart_rate) := by
  rw [rollingWindow]
  have htake : g.take (i + 1) = g.take i ++ [g[i]] := by
    rw [List.take_succ, List.getElem?_eq_getElem hi]
    rfl
  have hlen : (g.take i).length = i := by
    rw [List.length_take]
    omega
  rw [htake, List.drop_append_eq_append_drop, hlen]
  have hz : i - 2 - i = 0 := by omega
  rw [hz, List.drop_zero, List.filterMap_append]
  simp [hmiss]

end Ingest

/-! ### Row-key lemmas -/

namespace Bigtable

theorem pad2_data_length : ∀ n : Nat, n < 24 → ((pad2 n).data).length = 2 := by decide

theorem pad2_inj_lt24 :
    ∀ a : Nat, a < 24 → ∀ b : Nat, b < 24 → (pad2 a).data = (pad2 b).data → a = b := by
  decide

theorem hourIndex_add_hour (t : Int) : hourIndex (t + msPerHour) = hourIndex t + 1 := by
  unfold hourIndex msPerHour
  omega

theorem hourOfDay_lt (h : Int) : (h % 24).toNat < 24 := by omega

theorem hourOfDay_ne_succ (h : Int) : (h % 24).toNat ≠ ((h + 1) % 24).toNat := by omega

theorem make_row_key_split (E : String) (t : Int) :
    ∃ u : List Char,
      (make_row_key E t).data = u ++ (pad2 ((hourIndex t % 24).toNat)).data := by
  refine ⟨(E ++ "#").data ++
    ((pad4 (civilFromDays (hourIndex t / 24)).1 ++ "-" ++
      pad2 (civilFromDays (hourIndex t / 24)).2.1.toNat ++ "-" ++
      pad2 (civilFromDays (hourIndex t / 24)).2.2.toNat ++ "T")).data, ?_⟩
  simp [make_row_key, hourBucketString, String.data_append, List.append_assoc]

theorem flushBatches_flatten (xs : List (String × VitalsRow)) :
    ∀ acc, (flushBatches xs acc).flatten = acc ++ xs := by
  induction xs with
  | nil =>
    intro acc
    by_cases h : acc.isEmpty
    · rw [flushBatches, if_pos h, List.isEmpty_iff.mp h]
      rfl
    · rw [flushBatches, if_neg h]
      simp
  | cons r rest ih =>
    intro acc
    rw [flushBatches]
    by_cases h : 50 ≤ (acc ++ [r]).length
    · rw [if_pos h]
      simp only [List.flatten_cons, ih []]
      simp
    · rw [if_neg h, ih (acc ++ [r])]
      simp

theorem flushBatches_mem_le (xs : List (String × VitalsRow)) :
    ∀ acc, acc.length ≤ 49 → ∀ b ∈ flushBatches xs acc, b.length ≤ 50 := by
  induction xs with
  | nil =>
    intro acc hacc b hb
    by_cases h : acc.isEmpty
    · rw [flushBatches, if_pos h] at hb
      simp at hb
    · rw [flushBatches, if_neg h] at hb
      rcases List.mem_singleton.mp hb with rfl
      omega
  | cons r rest ih =>
    intro acc hacc b hb
    rw [flushBatches] at hb
    by_cases h : 50 ≤ (acc ++ [r]).length
    · rw [if_pos h] at hb
      rcases List.mem_cons.mp hb with rfl | hb
      · simp only [List.length_append, List.length_singleton]
        omega
      · exact ih [] (by simp) b hb
    · rw [if_neg h] at hb
      exact ih (acc ++ [r]) (by simp only [List.length_append] at h ⊢; omega) b hb

theorem flushBatches_mem_ne_nil (xs : List (String × VitalsRow)) :
    ∀ acc, ∀ b ∈ flushBatches xs acc, b ≠ [] := by
  induction xs with
  | nil =>
    intro acc b hb
    by_cases h : acc.isEmpty
    · rw [flushBatches, if_pos h] at hb
      simp at hb
    · rw [flushBatches, if_neg h] at hb
      rcases List.mem_singleton.mp hb with rfl
      exact fun hnil => h (by simp [hnil])
  | cons r rest ih =>
    intro acc b hb
    rw [flushBatches] at hb
    by_cases h : 50 ≤ (acc ++ [r]).length
    · rw [if_pos h] at hb
      rcases List.mem_cons.mp hb with rfl | hb
      · simp
      · exact ih [] b hb
    · rw [if_neg h] at hb
      exact ih (acc ++ [r]) b hb

theorem insertGrouped_keys (k : String) (r : StoredReading) :
    ∀ acc : List (String × List StoredReading),
      (insertGrouped acc k r).map (fun p => p.1) =
        if (acc.map (fun p => p.1)).contains k then acc.map (fun p => p.1)
        else acc.map (fun p => p.1) ++ [k] := by
  intro acc
  induction acc with
  | nil => simp [insertGrouped]
  | cons p rest ih =>
    obtain ⟨k', rs⟩ := p
    by_cases h : k' == k
    · rw [insertGrouped, if_pos h]
      have hk : k' = k := by simpa using h
      simp [hk]
    · rw [insertGrouped, if_neg h]
      have hkne : ¬k' = k := by simpa using h
      have hk2 : (k == k') = false := by
        simpa using fun he : k = k' => hkne he.symm
      simp only [List.map_cons, List.contains_cons, hk2, Bool.false_or, ih]
      by_cases hc : (rest.map (fun p => p.1)).contains k
      · rw [if_pos hc, if_pos hc]
      · rw [if_neg hc, if_neg hc]
        simp

theorem groupByKey_keys_nodup (records : List StoredReading) :
    ((groupByKey records).map (fun p => p.1)).Nodup := by
  suffices h : ∀ (l : List StoredReading) (acc : List (String × List StoredReading)),
      (acc.map (fun p => p.1)).Nodup →
      (((l.foldl (fun acc r =>
          insertGrouped acc (make_row_key r.sensor_id r.event_timestamp) r) acc)).map
        (fun p => p.1)).Nodup by
    exact h records [] (by simp)
  intro l
  induction l with
  | nil => exact fun acc h => h
  | cons r rest ih =>
    intro acc hacc
    simp only [List.foldl_cons]
    refine ih _ ?_
    rw [insertGrouped_keys]
    by_cases hc : (acc.map (fun p => p.1)).contains (make_row_key r.sensor_id r.event_timestamp)
    · rw [if_pos hc]
      exact hacc
    · rw [if_neg hc]
      rw [List.nodup_append]
      refine ⟨hacc, List.nodup_singleton _, ?_⟩
      intro a ha hb
      rcases List.mem_singleton.mp hb with rfl
      have hmem : (make_row_key r.sensor_id r.event_timestamp)
          ∈ acc.map (fun p => p.1) := ha
      exact hc (List.elem_iff.mpr hmem)

theorem sum_count_keys_flatten (k : String) (bs : List (List (String × VitalsRow))) :
    (bs.map (fun b => (b.map (fun p => p.1)).count k)).sum
      = (bs.flatten.map (fun p => p.1)).count k := by
  induction bs with
  | nil => simp
  | cons b bs ih => simp [List.count_append, ih]

theorem countP_any_eq_zero (k : String) (bs : List (List (String × VitalsRow)))
    (h : (bs.map (fun b => (b.map (fun p => p.1)).count k)).sum = 0) :
    bs.countP (fun b => b.any (fun p => p.1 == k)) = 0 := by
  induction bs with
  | nil => simp
  | cons b bs ih =>
    simp only [List.map_cons, List.sum_cons, Nat.add_eq_zero] at h
    have hb : (b.any (fun p => p.1 == k)) = false := by
      rw [Bool.eq_false_iff]
      intro hany
      obtain ⟨p, hp, hpk⟩ := List.any_eq_true.mp hany
      have : 0 < (b.map (fun p => p.1)).count k :=
        List.count_pos_iff.mpr (List.mem_map.mpr ⟨p, hp, by simpa using hpk⟩)
      omega
    rw [List.countP_cons_of_neg _ _ (by simp [hb]), ih h.2]

theorem countP_any_eq_one (k : String) (bs : List (List (String × VitalsRow)))
    (h : (bs.map (fun b => (b.map (fun p => p.1)).count k)).sum = 1) :
    bs.countP (fun b => b.any (fun p => p.1 == k)) = 1 := by
  induction bs with
  | nil => simp at h
  | cons b bs ih =>
    simp only [List.map_cons, List.sum_cons] at h
    by_cases hb : (b.map (fun p => p.1)).count k = 0
    · have hbf : (b.any (fun p => p.1 == k)) = false := by
        rw [Bool.eq_false_iff]
        intro hany
        obtain ⟨p, hp, hpk⟩ := List.any_eq_true.mp hany
        have : 0 < (b.map (fun p => p.1)).count k :=
          List.count_pos_iff.mpr (List.mem_map.mpr ⟨p, hp, by simpa using hpk⟩)
        omega
      rw [List.countP_cons_of_neg _ _ (by simp [hbf])]
      exact ih (by omega)
    · have hbt : (b.any (fun p => p.1 == k)) = true := by
        have : k ∈ b.map (fun p => p.1) := List.count_pos_iff.mp (by omega)
        obtain ⟨p, hp, hpk⟩ := List.mem_map.mp this
        exact List.any_eq_true.mpr ⟨p, hp, by simp [hpk]⟩
      rw [List.countP_cons_of_pos _ _ (by simp [hbt])]
      have hrest : (bs.map (fun b => (b.map (fun p => p.1)).count k)).sum = 0 := by
        omega
      rw [countP_any_eq_zero k bs hrest]

theorem length_assembleRow (hr bt : List (VersionedCell ℚ)) (sp : List (VersionedCell Int)) :
    (assembleRow hr bt sp).length = hr.length :=
  length_mapIdxFrom _ 0 hr

theorem getElem_assembleRow (hr bt : List (VersionedCell ℚ)) (sp : List (VersionedCell Int))
    (i : Nat) (hi : i < (assembleRow hr bt sp).length) (hhr : i < hr.length) :
    (assembleRow hr bt sp)[i] =
      { timestamp := hr[i].ts
        heart_rate := hr[i].val
        body_temperature := (bt[i]?).map (fun x => x.val)
        spO2 := (sp[i]?).map (fun x => x.val) } := by
  unfold assembleRow at hi ⊢
  rw [getElem_mapIdxFrom _ 0 hr i hhr hi]
  simp

theorem ts_bounds_of_mem_bucketEntries (t : BtTable) (s e : Int) (rk : String)
    (x : QueryResult) (hx : x ∈ bucketEntries t s e rk) :
    s ≤ x.timestamp ∧ x.timestamp < e := by
  rw [bucketEntries] at hx
  cases hrr : readRow t rk with
  | none =>
    rw [hrr] at hx
    simp at hx
  | some row =>
    rw [hrr] at hx
    simp only [assembleRow] at hx
    obtain ⟨j, hj, rfl⟩ := (mem_mapIdxFrom _ 0 _ x).mp hx
    have hc : (cellsInRange s e row.heart_rate)[j] ∈ cellsInRange s e row.heart_rate :=
      List.getElem_mem hj
    rcases List.mem_filter.mp hc with ⟨-, hcond⟩
    simp only [Bool.and_eq_true, decide_eq_true_eq] at hcond
    exact hcond

end Bigtable

/-! ### Claim theorems -/

/-- C5: `make_row_key` is a function of the entity id and the UTC calendar
hour only: for an entity `E`, two instants in the same UTC clock hour (the
same hour bucket) map to the same row key, and two instants exactly one
hour apart (hence crossing an hour boundary) map to different row keys. -/
theorem make_row_key_hour_bucket (E : String) (t1 t2 : Int) :
    (Bigtable.hourIndex t1 = Bigtable.hourIndex t2 →
      Bigtable.make_row_key E t1 = Bigtable.make_row_key E t2) ∧
    (t2 = t1 + Bigtable.msPerHour →
      Bigtable.make_row_key E t1 ≠ Bigtable.make_row_key E t2) := by
  constructor
  · intro h
    unfold Bigtable.make_row_key
    rw [h]
  · rintro rfl hk
    obtain ⟨u1, hu1⟩ := Bigtable.make_row_key_split E t1
    obtain ⟨u2, hu2⟩ := Bigtable.make_row_key_split E (t1 + Bigtable.msPerHour)
    have hd := congrArg String.data hk
    rw [hu1, hu2] at hd
    have hx := append_last_eq
      (by rw [Bigtable.pad2_data_length _ (Bigtable.hourOfDay_lt _),
        Bigtable.pad2_data_length _ (Bigtable.hourOfDay_lt _)]) hd
    have heq := Bigtable.pad2_inj_lt24 _ (Bigtable.hourOfDay_lt _) _
      (Bigtable.hourOfDay_lt _) hx
    rw [Bigtable.hourIndex_add_hour] at heq
    exact Bigtable.hourOfDay_ne_succ (Bigtable.hourIndex t1) heq

/-- C5 witness: both parts of the bucket property at concrete instants
(3599999 ms and 0 ms share the hour 1970-01-01T00; adding one hour to
3599999 ms crosses into a different bucket). -/
theorem make_row_key_hour_bucket_witness :
    Bigtable.make_row_key "s1" 0 = Bigtable.make_row_key "s1" 3599999 ∧
    Bigtable.make_row_key "s1" 3599999 ≠ Bigtable.make_row_key "s1" (3599999 + 3600000) :=
  ⟨(make_row_key_hour_bucket "s1" 0 3599999).1 (by decide),
   (make_row_key_hour_bucket "s1" 3599999 (3599999 + 3600000)).2 (by decide)⟩

/-- C8: the extract-and-label SQL labels a record high risk
(`septic_risk = 1`) exactly when its body temperature lies strictly
outside [36, 38] °C and its heart rate is strictly above 90 bpm, and
labels it 0 otherwise. -/
theorem septic_risk_rule (bt hr : ℚ) :
    (Vertex.septic_risk bt hr = 1 ↔ ((bt < 36 ∨ 38 < bt) ∧ 90 < hr)) ∧
    (Vertex.septic_risk bt hr = 0 ↔ ¬((bt < 36 ∨ 38 < bt) ∧ 90 < hr)) := by
  unfold Vertex.septic_risk
  have hiff : ((bt > 38 ∨ bt < 36) ∧ hr > 90) ↔ ((bt < 36 ∨ 38 < bt) ∧ 90 < hr) := by
    constructor
    · exact fun hp => ⟨hp.1.elim Or.inr Or.inl, hp.2⟩
    · exact fun hp => ⟨hp.1.elim Or.inr Or.inl, hp.2⟩
  by_cases h : (bt > 38 ∨ bt < 36) ∧ hr > 90
  · rw [if_pos h]
    exact ⟨iff_of_true rfl (hiff.mp h),
      iff_of_false (by norm_num) (not_not_intro (hiff.mp h))⟩
  · rw [if_neg h]
    exact ⟨iff_of_false (by norm_num) (fun hp => h (hiff.mpr hp)),
      iff_of_true rfl (fun hp => h (hiff.mpr hp))⟩

/-- C6: running table creation followed by a data load twice in a row —
on the wide-column loader or on the warehouse loader — leaves the store in
exactly the state a single run on the second dataset produces, whatever
the first dataset and whatever state either store started from:
recreation is destructive, so nothing of the first run's data survives. -/
theorem recreate_then_load_overwrites (s₁ s₂ : Option Bigtable.BtTable)
    (w₁ w₂ : Option (List Bigtable.StoredReading))
    (d1 d2 : List Bigtable.StoredReading) :
    (Bigtable.load_data
        (Bigtable.create_table
          (some ((Bigtable.load_data (Bigtable.create_table s₁) d1).1))) d2).1
      = (Bigtable.load_data (Bigtable.create_table s₂) d2).1 ∧
    (Bigquery.load_data
        (Bigquery.create_table
          (some ((Bigquery.load_data (Bigquery.create_table w₁) d1).1))) d2).1
      = (Bigquery.load_data (Bigquery.create_table w₂) d2).1 := by
  cases s₂ <;> cases w₂ <;> exact ⟨rfl, rfl⟩

/-- C2 counterexample: the claimed filter interval is wrong at both ends.
With a single reading stored at exactly the reference instant (7200000 ms,
bucket `a#1970-01-01T02`), the instant lies in the claimed half-open
interval `(reference − 1h, reference]`, yet `query_patient_vitals` returns
nothing: the store's timestamp-range filter is inclusive at the start and
exclusive at the end, so the served interval is `[reference − 1h,
reference)`. The spec-worded variant `querySpecInterval` would return the
reading. -/
theorem query_window_interval_cex :
    (Bigtable.query_patient_vitals
      [(Bigtable.make_row_key "a" 7200000,
        { heart_rate := [⟨7200000, 70⟩], body_temperature := [], spO2 := [],
          battery_level := [], heart_rate_imputed := [] })] "a" 7200000 = []) ∧
    (Bigtable.querySpecInterval
      [(Bigtable.make_row_key "a" 7200000,
        { heart_rate := [⟨7200000, 70⟩], body_temperature := [], spO2 := [],
          battery_level := [], heart_rate_imputed := [] })] "a" 7200000 =
      [{ timestamp := 7200000, heart_rate := 70, body_temperature := none,
         spO2 := none }]) ∧
    ((7200000 : Int) - Bigtable.msPerHour < 7200000 ∧ (7200000 : Int) ≤ 7200000) :=
  ⟨by decide, by decide, by decide⟩

/-- C2 (amended): `query_patient_vitals` reads at most two hour-bucket
rows, returns exactly the union of those rows' readings whose cell
timestamp lies in the half-open interval `[reference − 1h, reference)`
(inclusive start, exclusive end — not `(reference − 1h, reference]` as the
specification words it), and sorts the merged results ascending by
timestamp, regardless of how many readings are stored. -/
theorem query_patient_vitals_window (t : Bigtable.BtTable) (sid : String) (ref : Int) :
    ((Bigtable.queryBuckets sid ref).length ≤ 2) ∧
    (∀ e ∈ Bigtable.query_patient_vitals t sid ref,
      ref - Bigtable.msPerHour ≤ e.timestamp ∧ e.timestamp < ref) ∧
    ((Bigtable.query_patient_vitals t sid ref).Pairwise
      (fun a b => a.timestamp ≤ b.timestamp)) ∧
    ((Bigtable.query_patient_vitals t sid ref).Perm
      ((Bigtable.queryBuckets sid ref).flatMap
        (Bigtable.bucketEntries t (ref - Bigtable.msPerHour) ref))) := by
  refine ⟨?_, ?_, ?_, ?_⟩
  · rw [Bigtable.queryBuckets]
    split
    · simp
    · split <;> simp
  · intro e he
    rw [Bigtable.query_patient_vitals] at he
    rw [mem_sortBy] at he
    obtain ⟨rk, -, hrk⟩ := List.mem_flatMap.mp he
    exact Bigtable.ts_bounds_of_mem_bucketEntries t _ ref rk e hrk
  · have hp := pairwise_sortBy
      (fun a b : Bigtable.QueryResult => decide (a.timestamp ≤ b.timestamp))
      (fun a b => by
        rcases Int.le_total a.timestamp b.timestamp with h | h <;> simp [h])
      (fun a b c hab hbc => by
        simp only [decide_eq_true_eq] at hab hbc ⊢
        exact le_trans hab hbc)
      ((Bigtable.queryBuckets sid ref).flatMap
        (Bigtable.bucketEntries t (ref - Bigtable.msPerHour) ref))
    rw [Bigtable.query_patient_vitals]
    exact hp.imp (fun h => by simpa using h)
  · rw [Bigtable.query_patient_vitals]
    exact sortBy_perm _ _

/-- C1 counterexample: for the entity sequence with heart rates
[10, 20, 30, missing], the claimed imputed value — the mean of the three
preceding observed values, (10 + 20 + 30) / 3 = 20 — differs from the
value the cleaner produces, 25: the trailing `rolling(window=3)` at the
missing position covers that position and the two records before it, so
only 20 and 30 enter the mean. -/
theorem heart_rate_imputation_window_cex :
    ((Ingest.ingest_and_clean_data 1000000
      [{ sensor_id := "a", event_timestamp := some 0, heart_rate := some 10,
         body_temperature := some 37, spO2 := 98, battery_level := 5 },
       { sensor_id := "a", event_timestamp := some 1000, heart_rate := some 20,
         body_temperature := some 37, spO2 := 98, battery_level := 5 },
       { sensor_id := "a", event_timestamp := some 2000, heart_rate := some 30,
         body_temperature := some 37, spO2 := 98, battery_level := 5 },
       { sensor_id := "a", event_timestamp := some 3000, heart_rate := none,
         body_temperature := some 37, spO2 := 98, battery_level := 5 }]).map
      (fun c => (c.event_timestamp, c.heart_rate, c.heart_rate_imputed)) =
      [(0, some 10, false), (1000, some 20, false), (2000, some 30, false),
       (3000, some 25, true)]) ∧
    ((25 : ℚ) ≠ (10 + 20 + 30) / 3) := by
  constructor
  · norm_num [Ingest.ingest_and_clean_data, Ingest.cleanRecord, Ingest.sensorIds,
      dedupFirst, sortBy, insertSorted, Ingest.cleanGroup, Ingest.sortedGroup,
      Ingest.imputeGroup, mapIdxFrom, Ingest.fillRecord, Ingest.rollingMean,
      Ingest.rollingWindow, strLeB, strLtB, charListLt, List.filterMap_cons]
  · norm_num

/-- C1 (amended): for every entity whose sorted-by-time cleaned sequence
has a missing heart rate at position `i > 0`, whenever at least one of the
(up to two) immediately preceding records in the trailing window of width
3 carries an observed heart rate, the output contains the record with the
imputed value, equal to the mean of those observed values — the trailing
`rolling(window=3, min_periods=1)` mean, whose window covers positions
`i-2 .. i` with the missing value itself contributing nothing — and its
`heart_rate_imputed` flag is true. -/
theorem heart_rate_imputed_trailing_mean (now : Int) (records : List Ingest.RawRecord)
    (sid : String) (i : Nat)
    (hi : i < (Ingest.sortedGroup (records.filterMap (Ingest.cleanRecord now)) sid).length)
    (hpos : 0 < i)
    (hmiss : (Ingest.sortedGroup
      (records.filterMap (Ingest.cleanRecord now)) sid)[i].heart_rate = none)
    (hprec : (((Ingest.sortedGroup (records.filterMap (Ingest.cleanRecord now)) sid).take
        i).drop (i - 2)).filterMap (fun c => c.heart_rate) ≠ []) :
    ∃ c ∈ Ingest.ingest_and_clean_data now records,
      c.sensor_id = sid ∧
      c.event_timestamp = (Ingest.sortedGroup
        (records.filterMap (Ingest.cleanRecord now)) sid)[i].event_timestamp ∧
      c.heart_rate = some
        (((((Ingest.sortedGroup (records.filterMap (Ingest.cleanRecord now)) sid).take
            i).drop (i - 2)).filterMap (fun c => c.heart_rate)).sum /
          ((((((Ingest.sortedGroup (records.filterMap (Ingest.cleanRecord now)) sid).take
            i).drop (i - 2)).filterMap (fun c => c.heart_rate)).length : ℚ))) ∧
      c.heart_rate_imputed = true := by
  have hw := Ingest.rollingWindow_of_missing
    (Ingest.sortedGroup (records.filterMap (Ingest.cleanRecord now)) sid) i hi hmiss
  have hlen : i < (Ingest.imputeGroup
      (Ingest.sortedGroup (records.filterMap (Ingest.cleanRecord now)) sid)).length := by
    rw [Ingest.length_imputeGroup]
    exact hi
  have hrm : Ingest.rollingMean
      (Ingest.sortedGroup (records.filterMap (Ingest.cleanRecord now)) sid) i = some
      (((((Ingest.sortedGroup (records.filterMap (Ingest.cleanRecord now)) sid).take
          i).drop (i - 2)).filterMap (fun c => c.heart_rate)).sum /
        ((((((Ingest.sortedGroup (records.filterMap (Ingest.cleanRecord now)) sid).take
          i).drop (i - 2)).filterMap (fun c => c.heart_rate)).length : ℚ))) := by
    have hdef : Ingest.rollingMean
        (Ingest.sortedGroup (records.filterMap (Ingest.cleanRecord now)) sid) i =
        if (Ingest.rollingWindow
            (Ingest.sortedGroup (records.filterMap (Ingest.cleanRecord now)) sid) i).isEmpty
        then none
        else some ((Ingest.rollingWindow
            (Ingest.sortedGroup (records.filterMap (Ingest.cleanRecord now)) sid) i).sum /
          ((Ingest.rollingWindow
            (Ingest.sortedGroup (records.filterMap (Ingest.cleanRecord now)) sid) i).length :
            ℚ)) := rfl
    rw [hdef, hw, if_neg]
    intro hfalse
    exact hprec (List.isEmpty_iff.mp hfalse)
  have hci : (Ingest.imputeGroup
      (Ingest.sortedGroup (records.filterMap (Ingest.cleanRecord now)) sid))[i]
      = { (Ingest.sortedGroup (records.filterMap (Ingest.cleanRecord now)) sid)[i] with
          heart_rate := Ingest.rollingMean
            (Ingest.sortedGroup (records.filterMap (Ingest.cleanRecord now)) sid) i } := by
    rw [Ingest.getElem_imputeGroup _ i hlen hi]
    exact Ingest.fillRecord_of_none _ i _ hmiss
  have hgmem := List.getElem_mem hi
  obtain ⟨hval, hsid⟩ := (Ingest.mem_sortedGroup
    (records.filterMap (Ingest.cleanRecord now)) sid _).mp hgmem
  obtain ⟨r, -, hcr⟩ := List.mem_filterMap.mp hval
  have hspec := Ingest.cleanRecord_spec now r _ hcr
  have hflag : (Ingest.sortedGroup
      (records.filterMap (Ingest.cleanRecord now)) sid)[i].heart_rate_imputed = true := by
    rw [hspec.2.2.2.2.2]
    rw [hspec.2.2.2.1] at hmiss
    rw [hmiss]
    rfl
  have hmm := hci ▸ List.getElem_mem hlen
  have hflt : _ ∈ Ingest.cleanGroup
      (records.filterMap (Ingest.cleanRecord now)) sid :=
    List.mem_filter.mpr ⟨hmm, by simp [hrm]⟩
  refine ⟨_, Ingest.mem_output_of_mem_cleanGroup now records sid _
    (hsid ▸ Ingest.sensorId_mem_sensorIds _ _ hval) hflt, ?_, ?_, ?_, ?_⟩
  · exact hsid
  · rfl
  · simpa using hrm
  · simpa using hflag

/-- C1 witness: the amended imputation rule applied to the concrete input
[10, 20, 30, missing] at position 3 of entity "a": the output contains the
imputed record, flagged imputed. -/
theorem heart_rate_imputed_trailing_mean_witness :
    ∃ c ∈ Ingest.ingest_and_clean_data 1000000
      [{ sensor_id := "a", event_timestamp := some 0, heart_rate := some 10,
         body_temperature := some 37, spO2 := 98, battery_level := 5 },
       { sensor_id := "a", event_timestamp := some 1000, heart_rate := some 20,
         body_temperature := some 37, spO2 := 98, battery_level := 5 },
       { sensor_id := "a", event_timestamp := some 2000, heart_rate := some 30,
         body_temperature := some 37, spO2 := 98, battery_level := 5 },
       { sensor_id := "a", event_timestamp := some 3000, heart_rate := none,
         body_temperature := some 37, spO2 := 98, battery_level := 5 }],
      c.sensor_id = "a" ∧ c.heart_rate_imputed = true := by
  obtain ⟨c, hc, h1, h2, h3, h4⟩ := heart_rate_imputed_trailing_mean 1000000
    [{ sensor_id := "a", event_timestamp := some 0, heart_rate := some 10,
       body_temperature := some 37, spO2 := 98, battery_level := 5 },
     { sensor_id := "a", event_timestamp := some 1000, heart_rate := some 20,
       body_temperature := some 37, spO2 := 98, battery_level := 5 },
     { sensor_id := "a", event_timestamp := some 2000, heart_rate := some 30,
       body_temperature := some 37, spO2 := 98, battery_level := 5 },
     { sensor_id := "a", event_timestamp := some 3000, heart_rate := none,
       body_temperature := some 37, spO2 := 98, battery_level := 5 }]
    "a" 3 (by decide) (by decide) (by decide) (by decide)
  exact ⟨c, hc, h1, h4⟩

/-- C3 counterexample: a raw record whose timestamp parses and is not in
the future can still be dropped from the cleaned output — here the only
record's heart rate is missing and no earlier same-entity sample exists,
so the heart-rate step removes it and no corresponding output record
exists. -/
theorem cleaned_timestamp_dropped_cex :
    Ingest.ingest_and_clean_data 2000
      [{ sensor_id := "a", event_timestamp := some 1000, heart_rate := none,
         body_temperature := some 37, spO2 := 98, battery_level := 5 }] = [] ∧
    ({ sensor_id := "a", event_timestamp := some 1000, heart_rate := none,
       body_temperature := some 37, spO2 := 98,
       battery_level := 5 : Ingest.RawRecord }).event_timestamp = some 1000 ∧
    ((1000 : Int) ≤ 2000) := by
  refine ⟨?_, rfl, by norm_num⟩
  norm_num [Ingest.ingest_and_clean_data, Ingest.cleanRecord, Ingest.sensorIds,
    dedupFirst, sortBy, insertSorted, Ingest.cleanGroup, Ingest.sortedGroup,
    Ingest.imputeGroup, mapIdxFrom, Ingest.fillRecord, Ingest.rollingMean,
    Ingest.rollingWindow, strLeB, strLtB, charListLt, List.filterMap_cons]

/-- C3 (amended): for every raw input record whose timestamp parses
successfully, is not in the future, and whose heart rate is present (so
the heart-rate step cannot drop it), the cleaned output contains a
corresponding record — same sensor, same observed heart rate, not flagged
imputed — whose `event_timestamp` is the parsed instant expressed as Unix
epoch milliseconds. -/
theorem cleaned_timestamp_epoch_ms (now : Int) (records : List Ingest.RawRecord)
    (r : Ingest.RawRecord) (t : Int) (hmem : r ∈ records)
    (ht : r.event_timestamp = some t) (hfut : t ≤ now)
    (hhr : r.heart_rate.isSome = true) :
    ∃ c ∈ Ingest.ingest_and_clean_data now records,
      c.sensor_id = r.sensor_id ∧ c.event_timestamp = t ∧
      c.heart_rate = r.heart_rate ∧ c.heart_rate_imputed = false := by
  obtain ⟨v, hv⟩ := Option.isSome_iff_exists.mp hhr
  have hcr : Ingest.cleanRecord now r = some
      (⟨r.sensor_id, t, r.heart_rate,
        r.body_temperature.map (fun v => min (max v 27) 42.6),
        r.spO2, r.battery_level, r.heart_rate.isNone⟩ : Ingest.CleanRecord) := by
    simp only [Ingest.cleanRecord, ht, if_pos hfut]
  have hval : (⟨r.sensor_id, t, r.heart_rate,
      r.body_temperature.map (fun v => min (max v 27) 42.6),
      r.spO2, r.battery_level, r.heart_rate.isNone⟩ : Ingest.CleanRecord)
      ∈ records.filterMap (Ingest.cleanRecord now) :=
    List.mem_filterMap.mpr ⟨r, hmem, hcr⟩
  have hsg := (Ingest.mem_sortedGroup (records.filterMap (Ingest.cleanRecord now))
    r.sensor_id _).mpr ⟨hval, rfl⟩
  obtain ⟨i, hi, hgi⟩ := List.mem_iff_getElem.mp hsg
  have hlen : i < (Ingest.imputeGroup
      (Ingest.sortedGroup (records.filterMap (Ingest.cleanRecord now)) r.sensor_id)).length := by
    rw [Ingest.length_imputeGroup]
    exact hi
  have hci : (Ingest.imputeGroup
      (Ingest.sortedGroup (records.filterMap (Ingest.cleanRecord now)) r.sensor_id))[i]
      = (⟨r.sensor_id, t, r.heart_rate,
          r.body_temperature.map (fun v => min (max v 27) 42.6),
          r.spO2, r.battery_level, r.heart_rate.isNone⟩ : Ingest.CleanRecord) := by
    rw [Ingest.getElem_imputeGroup _ i hlen hi, hgi]
    exact Ingest.fillRecord_of_isSome _ i _ (by simpa using hhr)
  have hmm := hci ▸ List.getElem_mem hlen
  have hflt : _ ∈ Ingest.cleanGroup (records.filterMap (Ingest.cleanRecord now)) r.sensor_id :=
    List.mem_filter.mpr ⟨hmm, by simpa using hhr⟩
  refine ⟨_, Ingest.mem_output_of_mem_cleanGroup now records r.sensor_id _
    (Ingest.sensorId_mem_sensorIds _ _ hval) hflt, rfl, rfl, rfl, ?_⟩
  simp [hv]

/-- C3 witness: the amended property at a concrete one-record input with a
parseable past timestamp and an observed heart rate. -/
theorem cleaned_timestamp_epoch_ms_witness :
    ∃ c ∈ Ingest.ingest_and_clean_data 2000
      [{ sensor_id := "a", event_timestamp := some 1000, heart_rate := some 70,
         body_temperature := some 37, spO2 := 98, battery_level := 5 }],
      c.sensor_id = "a" ∧ c.event_timestamp = 1000 ∧
      c.heart_rate = some 70 ∧ c.heart_rate_imputed = false :=
  cleaned_timestamp_epoch_ms 2000
    [{ sensor_id := "a", event_timestamp := some 1000, heart_rate := some 70,
       body_temperature := some 37, spO2 := 98, battery_level := 5 }]
    { sensor_id := "a", event_timestamp := some 1000, heart_rate := some 70,
      body_temperature := some 37, spO2 := 98, battery_level := 5 }
    1000 (List.mem_singleton.mpr rfl) rfl (by norm_num) rfl

/-- C4 counterexample: a raw record with a missing body temperature is
retained by the cleaner with its body temperature still missing — `clip`
leaves NaN as NaN — so not every output record carries a value in
[27, 42.6]. -/
theorem body_temperature_missing_cex :
    (Ingest.ingest_and_clean_data 2000
      [{ sensor_id := "a", event_timestamp := some 1000, heart_rate := some 70,
         body_temperature := none, spO2 := 98, battery_level := 5 }]).map
      (fun c => c.body_temperature) = [none] := by
  norm_num [Ingest.ingest_and_clean_data, Ingest.cleanRecord, Ingest.sensorIds,
    dedupFirst, sortBy, insertSorted, Ingest.cleanGroup, Ingest.sortedGroup,
    Ingest.imputeGroup, mapIdxFrom, Ingest.fillRecord, Ingest.rollingMean,
    Ingest.rollingWindow, strLeB, strLtB, charListLt, List.filterMap_cons]

/-- C4 (amended): every cleaned record whose body temperature is present
carries a value clamped into [27, 42.6]; a record whose raw body
temperature is missing stays in the output with the field missing. -/
theorem body_temperature_clamped (now : Int) (records : List Ingest.RawRecord)
    (c : Ingest.CleanRecord) (hc : c ∈ Ingest.ingest_and_clean_data now records)
    (v : ℚ) (hv : c.body_temperature = some v) :
    27 ≤ v ∧ v ≤ 42.6 := by
  rw [Ingest.ingest_and_clean_data] at hc
  obtain ⟨sid, hsid, hcg⟩ := List.mem_flatMap.mp hc
  rw [Ingest.cleanGroup] at hcg
  obtain ⟨hmem, -⟩ := List.mem_filter.mp hcg
  rw [Ingest.imputeGroup] at hmem
  obtain ⟨j, hj, rfl⟩ := (mem_mapIdxFrom _ 0 _ c).mp hmem
  have hbt := (Ingest.fillRecord_fields
    (Ingest.sortedGroup (records.filterMap (Ingest.cleanRecord now)) sid) (0 + j)
    (Ingest.sortedGroup (records.filterMap (Ingest.cleanRecord now)) sid)[j]).2.2.1
  rw [hbt] at hv
  have hgj := List.getElem_mem hj
  obtain ⟨hval, -⟩ := (Ingest.mem_sortedGroup _ sid _).mp hgj
  obtain ⟨r, -, hcr⟩ := List.mem_filterMap.mp hval
  have hspec := (Ingest.cleanRecord_spec now r _ hcr).2.2.2.2.1
  rw [hspec] at hv
  obtain ⟨b0, -, hvb⟩ := Option.map_eq_some'.mp hv
  constructor
  · rw [← hvb]
    exact le_min (le_trans (le_max_right b0 27) (le_refl _)) (by norm_num)
  · rw [← hvb]
    exact min_le_right _ _

/-- C4 witness: the amended bound applied to a concrete run in which a
raw body temperature of 50 is clamped to 42.6. -/
theorem body_temperature_clamped_witness : (27 : ℚ) ≤ 42.6 ∧ (42.6 : ℚ) ≤ 42.6 :=
  body_temperature_clamped 2000
    [{ sensor_id := "a", event_timestamp := some 1000, heart_rate := some 70,
       body_temperature := some 50, spO2 := 98, battery_level := 5 }]
    { sensor_id := "a", event_timestamp := 1000, heart_rate := some 70,
      body_temperature := some 42.6, spO2 := 98, battery_level := 5,
      heart_rate_imputed := false }
    (by norm_num [Ingest.ingest_and_clean_data, Ingest.cleanRecord, Ingest.sensorIds,
      dedupFirst, sortBy, insertSorted, Ingest.cleanGroup, Ingest.sortedGroup,
      Ingest.imputeGroup, mapIdxFrom, Ingest.fillRecord, Ingest.rollingMean,
      Ingest.rollingWindow, strLeB, strLtB, charListLt, List.filterMap_cons])
    42.6 rfl

/-- C7: the wide-column loader's write loop partitions the grouped row
mutations into `mutate_rows` calls of at most 50 rows each, flushes
every batch it opens (a non-empty final partial batch included, so the
batches concatenate back to exactly the grouped rows), the grouped row
keys are pairwise distinct, and every grouped row key appears in exactly
one mutate call. -/
theorem load_data_batching (records : List Bigtable.StoredReading) :
    (∀ b ∈ Bigtable.flushBatches
        ((Bigtable.groupByKey records).map (fun p => (p.1, Bigtable.directRow p.2))) [],
      b.length ≤ 50 ∧ b ≠ []) ∧
    ((Bigtable.flushBatches
        ((Bigtable.groupByKey records).map (fun p => (p.1, Bigtable.directRow p.2))) []).flatten
      = (Bigtable.groupByKey records).map (fun p => (p.1, Bigtable.directRow p.2))) ∧
    (((Bigtable.groupByKey records).map (fun p => p.1)).Nodup) ∧
    (∀ k ∈ (Bigtable.groupByKey records).map (fun p => p.1),
      (Bigtable.flushBatches
          ((Bigtable.groupByKey records).map (fun p => (p.1, Bigtable.directRow p.2))) []).countP
        (fun b => b.any (fun p => p.1 == k)) = 1) := by
  refine ⟨?_, ?_, Bigtable.groupByKey_keys_nodup records, ?_⟩
  · intro b hb
    exact ⟨Bigtable.flushBatches_mem_le _ [] (by simp) b hb,
      Bigtable.flushBatches_mem_ne_nil _ [] b hb⟩
  · rw [Bigtable.flushBatches_flatten]
    rfl
  · intro k hk
    apply Bigtable.countP_any_eq_one
    rw [Bigtable.sum_count_keys_flatten, Bigtable.flushBatches_flatten, List.nil_append,
      List.map_map]
    have hmapkeys :
        ((Bigtable.groupByKey records).map
          ((fun p => p.1) ∘ (fun p => (p.1, Bigtable.directRow p.2))))
          = (Bigtable.groupByKey records).map (fun p => p.1) := by
      simp [Function.comp]
    rw [hmapkeys]
    exact List.count_eq_one_of_mem (Bigtable.groupByKey_keys_nodup records) hk

/-- C9: the query's per-row assembly emits exactly one result entry per
`heart_rate` cell version — carrying that cell's timestamp and value — a
`body_temperature` or `spO2` list shorter than the `heart_rate` list is
reported as `none` at the missing positions, present positions are paired
by index, any `body_temperature`/`spO2` cells beyond the `heart_rate`
count are silently dropped (the assembly only reads the first
`hr.length` entries of either list), and a row with no `heart_rate` cells
contributes no results. -/
theorem assembleRow_positional (hr bt : List (Bigtable.VersionedCell ℚ))
    (sp : List (Bigtable.VersionedCell Int)) :
    ((Bigtable.assembleRow hr bt sp).length = hr.length) ∧
    (∀ i, ∀ hi : i < (Bigtable.assembleRow hr bt sp).length, ∀ hhr : i < hr.length,
      ((Bigtable.assembleRow hr bt sp)[i].timestamp = hr[i].ts ∧
        (Bigtable.assembleRow hr bt sp)[i].heart_rate = hr[i].val) ∧
      (bt.length ≤ i → (Bigtable.assembleRow hr bt sp)[i].body_temperature = none) ∧
      (∀ hbt : i < bt.length,
        (Bigtable.assembleRow hr bt sp)[i].body_temperature = some (bt[i].val)) ∧
      (sp.length ≤ i → (Bigtable.assembleRow hr bt sp)[i].spO2 = none) ∧
      (∀ hsp : i < sp.length,
        (Bigtable.assembleRow hr bt sp)[i].spO2 = some (sp[i].val))) ∧
    (Bigtable.assembleRow hr bt sp =
      Bigtable.assembleRow hr (bt.take hr.length) (sp.take hr.length)) ∧
    (hr = [] → Bigtable.assembleRow hr bt sp = []) := by
  refine ⟨Bigtable.length_assembleRow hr bt sp, ?_, ?_, ?_⟩
  · intro i hi hhr
    rw [Bigtable.getElem_assembleRow hr bt sp i hi hhr]
    refine ⟨⟨rfl, rfl⟩, ?_, ?_, ?_, ?_⟩
    · intro hle
      simp [List.getElem?_eq_none hle]
    · intro hbt
      simp [List.getElem?_eq_getElem hbt]
    · intro hle
      simp [List.getElem?_eq_none hle]
    · intro hsp
      simp [List.getElem?_eq_getElem hsp]
  · refine List.ext_getElem ?_ ?_
    · rw [Bigtable.length_assembleRow, Bigtable.length_assembleRow]
    · intro i h1 h2
      have hhr : i < hr.length := by
        rw [Bigtable.length_assembleRow] at h1
        exact h1
      rw [Bigtable.getElem_assembleRow hr bt sp i h1 hhr,
        Bigtable.getElem_assembleRow hr _ _ i h2 hhr]
      simp [List.getElem?_take, hhr]
  · rintro rfl
    rfl

/-- C10: the cleaner raises its validation error exactly when no input
path is given or the given path is not an existing file, and in that case
the outcome is decided before any data is read (the result does not
depend on any file's contents); for an existing file the error is not
raised. -/
theorem ingest_entry_validation (fs : Ingest.FileSystem) (now : Int)
    (path : Option String) :
    ((Ingest.ingest_entry fs now path).isOk = false ↔
      (path = none ∨ ∃ p, path = some p ∧ fs.isFile p = false)) ∧
    (∀ g, (Ingest.ingest_entry fs now path).isOk = false →
      Ingest.ingest_entry { isFile := fs.isFile, contents := g } now path
        = Ingest.ingest_entry fs now path) := by
  cases path with
  | none =>
    exact ⟨by simp [Ingest.ingest_entry, Except.isOk, Except.toBool], fun g _ => rfl⟩
  | some p =>
    by_cases hf : fs.isFile p = true
    · constructor
      · simp [Ingest.ingest_entry, hf, Except.isOk, Except.toBool]
      · intro g h
        simp [Ingest.ingest_entry, hf, Except.isOk, Except.toBool] at h
    · have hf' : fs.isFile p = false := by simpa using hf
      constructor
      · simp [Ingest.ingest_entry, hf', Except.isOk, Except.toBool]
      · intro g _
        simp [Ingest.ingest_entry, hf']

end PatientMonitoring
